import Mathlib

/-!
Verification of the protocol client in `src/chrome.ts` (class `ChromeImpl`):
the request/response correlation engine, the read loop dispatcher, and the
binding bridge.  JavaScript values that only ride along (JSON payloads,
evaluated page values) are represented by their JSON serialization as a
`String`; `JSON.stringify` is therefore the identity on this representation,
and `JSON.parse` of the double-encoded `params.message` string is represented
by carrying both the raw string (for `logger.log(params.message)`) and its
decoded form in the inbound message.  JavaScript loose equality against the
literal `0` (`res.id == 0`) is false for `undefined`, which is why a missing
`id` field is modelled as `none` and the check as `id = some 0`.
-/

/-- Field `error` of the inner protocol message (`error?: \x7b message?: string \x7d`). -/
structure ProtoError where
  message : Option String
deriving DecidableEq

/-- Field `result.result` of the inner protocol message. -/
structure ResResult where
  description : Option String
  type : Option String
  subtype : Option String
  value : Option String
deriving DecidableEq

/-- Field `result.exceptionDetails.exception` of the inner protocol message. -/
structure ExcException where
  value : Option String
deriving DecidableEq

/-- Field `result.exceptionDetails` of the inner protocol message. -/
structure ExcDetails where
  exception : Option ExcException
deriving DecidableEq

/-- Field `result` of the inner protocol message
(`TargetReceivedMessageFromTargetMessage.result` in `chrome.ts`). -/
structure InnerResult where
  result : Option ResResult
  exceptionDetails : Option ExcDetails
deriving DecidableEq

/-- Payload of a `Runtime.bindingCalled` event
(`RuntimeBindingCalledParams.payload`): binding name, per-binding call
sequence number, and the call arguments (serialized). -/
structure BindingPayload where
  name : String
  seq : Nat
  args : List String
deriving DecidableEq

/-- Params of a `Runtime.bindingCalled` event (`RuntimeBindingCalledParams`):
`id` is the page execution-context id the call originated from. -/
structure BindingParams where
  id : Nat
  name : String
  payload : BindingPayload
deriving DecidableEq

/-- The inner protocol message decoded from the `message` string of a
`Target.receivedMessageFromTarget` envelope
(`TargetReceivedMessageFromTargetMessage` in `chrome.ts`).  Every field can be
absent in the JSON, hence the `Option`s; a plain CDP response carries no
`method`, a plain event carries no `id`. -/
structure InnerMsg where
  id : Option Nat
  method : Option String
  error : Option ProtoError
  result : Option InnerResult
  params : Option BindingParams
deriving DecidableEq

/-- An inbound transport message (`IncommingMessage`), classified by the outer
`method` the read loop inspects.  `received sid raw inner` is a
`Target.receivedMessageFromTarget` envelope whose `params.sessionId` is `sid`
and whose `params.message` string is `raw`, decoding to `inner`.  Everything
else (including outer-level responses, which carry no `method`) is `other`. -/
inductive InMsg where
  | received (sessionId : String) (raw : String) (inner : InnerMsg)
  | targetDestroyed (targetId : String)
  | other (method : Option String)
deriving DecidableEq

/-- Result of invoking a host binding: `ok` carries `JSON.stringify` of the
returned value, `thrown` carries the thrown error's `.message`. -/
inductive BindingRes where
  | ok (serialized : String)
  | thrown (message : String)

/-- A host-side binding (`type Binding = (args: any[]) => any`), with the
result already serialized. -/
def BindingFn := List String → BindingRes

/-- How the read loop settles a pending promise (the if/else chain at the end
of `readLoop`): three rejection shapes and two resolution shapes. -/
inductive Outcome where
  | rejectError (message : String)
  | rejectException (value : String)
  | rejectErrorResult (description : Option String)
  | resolveValue (value : Option String)
  | resolveRaw (result : InnerResult)
deriving DecidableEq

/-- Whether an outcome rejects (`EvaluateError`) rather than resolves. -/
def Outcome.isRejection : Outcome → Bool
  | Outcome.rejectError _ => true
  | Outcome.rejectException _ => true
  | Outcome.rejectErrorResult _ => true
  | _ => false

/-- Observable actions of the client: transport writes, correlation-table
inserts, logger calls, promise settlements, the binding bridge's
fire-and-forget `Runtime.evaluate` (carrying the injected expression and the
context id), and `exit()`. -/
inductive Eff where
  | send (id : Nat) (method : String)
  | insert (id : Nat) (handle : Nat)
  | logMsg (raw : String)
  | logErr
  | settle (id : Nat) (handle : Nat) (o : Outcome)
  | bridgeEval (expr : String) (ctx : Nat)
  | exit
deriving DecidableEq

/-- State of a `ChromeImpl` instance: the monotonic id counter `#lastId`, the
correlation table `#pending` (request id to completion-handle token), the
binding registry `#bindings`, and the `#session` / `#target` fields
(`Option` because they are definite-assignment-asserted and undefined until
`startSession` / `findTarget` run).  `nextHandle` mints fresh tokens naming
the `deferred()` promises. -/
structure ChromeState where
  lastId : Nat
  pending : List (Nat × Nat)
  bindings : List (String × BindingFn)
  session : Option String
  target : Option String
  nextHandle : Nat

/-- `Map.get` on the correlation table. -/
def tblGet (l : List (Nat × Nat)) (i : Nat) : Option Nat :=
  (l.find? (fun p => p.1 == i)).map (fun p => p.2)

/-- `Map.delete` on the correlation table. -/
def tblDel (l : List (Nat × Nat)) (i : Nat) : List (Nat × Nat) :=
  l.eraseP (fun p => p.1 == i)

/-- `Map.set` on the correlation table. -/
def tblSet (l : List (Nat × Nat)) (i h : Nat) : List (Nat × Nat) :=
  (i, h) :: tblDel l i

/-- The truthiness test `res.error?.message` of `readLoop`: some error object
with a present, non-empty message. -/
def errMessageTruthy : Option ProtoError → Option String
  | some e =>
    match e.message with
    | some m => if m = "" then none else some m
    | none => none
  | none => none

/-- The response-settlement chain of `readLoop` (lines 261-272 of
`chrome.ts`).  Returns `none` exactly when the code would throw a
`TypeError`: when `res.error?.message` is falsy and `res.result` is absent,
`res.result.exceptionDetails` dereferences `undefined`. -/
def settleOutcome (res : InnerMsg) : Option Outcome :=
  match errMessageTruthy res.error with
  | some m => some (Outcome.rejectError m)
  | none =>
    match res.result with
    | none => none
    | some r =>
      match r.exceptionDetails.bind (fun d => d.exception.bind (fun e => e.value)) with
      | some v => some (Outcome.rejectException v)
      | none =>
        match r.result with
        | none => some (Outcome.resolveRaw r)
        | some rr =>
          if rr.type = some "object" ∧ rr.subtype = some "error" then
            some (Outcome.rejectErrorResult rr.description)
          else
            match rr.type with
            | none => some (Outcome.resolveRaw r)
            | some t =>
              if t = "" then some (Outcome.resolveRaw r)
              else some (Outcome.resolveValue rr.value)

/-- Indentation of the outer lines of the sprintf template in the binding
bridge (the source file mixes a tab, two spaces and six tabs). -/
def indentA : String := "\t  \t\t\t\t\t\t"

/-- Indentation of the two callback-invoking lines of the template. -/
def indentB : String := indentA ++ "\t"

/-- The injected expression built by the binding bridge:
`sprintf` of the template at lines 235-243 of `chrome.ts`, with `%[1]s` the
payload name, `%[2]d` the sequence number, `%[3]s` the serialized result and
`%[4]s` the raw error message.  Note that `%[4]s` is interpolated unquoted
into the `if (...)` condition (the Go original interpolates a pre-quoted
string there). -/
def buildExpr (bname : String) (seq : Nat) (result error : String) : String :=
  "\n" ++ indentA ++ "if (" ++ error ++ ") \x7b\n"
  ++ indentB ++ "window[\x27" ++ bname ++ "\x27][\x27errors\x27].get(" ++ toString seq ++ ")(" ++ error ++ ");\n"
  ++ indentA ++ "\x7d else \x7b\n"
  ++ indentB ++ "window[\x27" ++ bname ++ "\x27][\x27callbacks\x27].get(" ++ toString seq ++ ")(" ++ result ++ ");\n"
  ++ indentA ++ "\x7d\n"
  ++ indentA ++ "window[\x27" ++ bname ++ "\x27][\x27callbacks\x27].delete(" ++ toString seq ++ ");\n"
  ++ indentA ++ "window[\x27" ++ bname ++ "\x27][\x27errors\x27].delete(" ++ toString seq ++ ");\n"
  ++ "                "

/-- `let result = ""; let error = ""; try ... catch`: a successful binding
leaves `error` empty, a throwing one leaves `result` empty. -/
def runBinding (b : BindingFn) (args : List String) : String × String :=
  match b args with
  | BindingRes.ok r => (r, "")
  | BindingRes.thrown m => ("", m)

/-- Result of one loop-body step: continue with the next iteration, leave the
loop (`break` / `return`), or die on an uncaught `TypeError`. -/
inductive StepRes where
  | cont (s : ChromeState) (effs : List Eff)
  | halt (s : ChromeState) (effs : List Eff)
  | crash (s : ChromeState) (effs : List Eff)

/-- Effects of a step, whichever way it ended. -/
def effsOf : StepRes → List Eff
  | StepRes.cont _ e => e
  | StepRes.halt _ e => e
  | StepRes.crash _ e => e

/-- The correlation tail of the envelope branch (lines 254-272):
`#pending.get(res.id)`, unconditional `#pending.delete(res.id)`, drop when no
promise is pending, otherwise settle it.  A missing inner `id` makes the
`get` miss (`Map.get(undefined)`).  `pre` carries the effect of the
fall-through from the console/exception logging branch. -/
def correlate (s : ChromeState) (res : InnerMsg) (pre : List Eff) : StepRes :=
  match res.id with
  | none => StepRes.cont s pre
  | some i =>
    match tblGet s.pending i with
    | none => StepRes.cont { s with pending := tblDel s.pending i } pre
    | some h =>
      let s' := { s with pending := tblDel s.pending i }
      match settleOutcome res with
      | some o => StepRes.cont s' (pre ++ [Eff.settle i h o])
      | none => StepRes.crash s' pre

/-- One successfully received message through the dispatcher of `readLoop`.
The guard of the logging branch keeps the source's operator precedence:
`(res.id == 0 && res.method == "Runtime.consoleAPICalled") ||
res.method == "Runtime.exceptionThrown"`, and that branch does NOT `continue`
-- it falls through to the correlation tail.  The binding branch spawns an
un-awaited async task; the task's single `Runtime.evaluate` is modelled as
the `bridgeEval` effect.  A `Runtime.bindingCalled` match with absent
`res.params` crashes on destructuring `undefined`. -/
def processMsg (s : ChromeState) (m : InMsg) : StepRes :=
  match m with
  | InMsg.received sid raw res =>
    if s.session ≠ some sid then StepRes.cont s []
    else if (res.id = some 0 ∧ res.method = some "Runtime.consoleAPICalled")
        ∨ res.method = some "Runtime.exceptionThrown" then
      correlate s res [Eff.logMsg raw]
    else if res.id = some 0 ∧ res.method = some "Runtime.bindingCalled" then
      match res.params with
      | none => StepRes.crash s []
      | some p =>
        match s.bindings.find? (fun kv => kv.1 == p.name) with
        | some kv =>
          let re := runBinding kv.2 p.payload.args
          StepRes.cont s [Eff.bridgeEval (buildExpr p.payload.name p.payload.seq re.1 re.2) p.id]
        | none => StepRes.cont s []
    else correlate s res []
  | InMsg.targetDestroyed tid =>
    if s.target = some tid then StepRes.halt s [Eff.exit] else StepRes.cont s []
  | InMsg.other _ => StepRes.cont s []

/-- Why a run of the read loop ended: the supplied inbound prefix was
exhausted, the loop left normally (`return` on target-destroyed), or it
crashed. -/
inductive LoopExit where
  | drained
  | halted
  | crashed
deriving DecidableEq

/-- Final state, accumulated effects and exit mode of a run. -/
structure RunOut where
  state : ChromeState
  effs : List Eff
  stopped : LoopExit

/-- The read loop over a finite prefix of successfully received inbound
messages. -/
def runLoop : ChromeState → List InMsg → RunOut
  | s, [] => ⟨s, [], LoopExit.drained⟩
  | s, m :: ms =>
    match processMsg s m with
    | StepRes.cont s' e =>
      let r := runLoop s' ms
      ⟨r.state, e ++ r.effs, r.stopped⟩
    | StepRes.halt s' e => ⟨s', e, LoopExit.halted⟩
    | StepRes.crash s' e => ⟨s', e, LoopExit.crashed⟩

/-- Result of one `transport.receive()` in the loop head: a message, or a
rejection (with whether `isClosed()` reports true afterwards). -/
inductive RecvOutcome where
  | ok (m : InMsg)
  | fail (closedAfter : Bool)

/-- One full iteration of `readLoop` including the `try/catch` around
`receive()`: on a receive error the error is logged and the loop `break`s if
the transport is closed; otherwise control falls through to
`m.method` with `m` never assigned (`let m!: IncommingMessage`), so reading
`.method` of `undefined` throws a `TypeError` and the loop crashes. -/
def readIter (s : ChromeState) (r : RecvOutcome) : StepRes :=
  match r with
  | RecvOutcome.ok m => processMsg s m
  | RecvOutcome.fail closed =>
    if closed then StepRes.halt s [Eff.logErr]
    else StepRes.crash s [Eff.logErr]

/-- `nextId()`: `return ++this.#lastId`. -/
def nextId (s : ChromeState) : Nat × ChromeState :=
  (s.lastId + 1, { s with lastId := s.lastId + 1 })

/-- `sendMessage(id, method, args)`: writes the envelope to the transport,
creates a `deferred()` and inserts it into `#pending` keyed by `id` -- in
that order -- then returns the promise (its token). -/
def sendMessage (s : ChromeState) (id : Nat) (method : String) :
    ChromeState × List Eff × Nat :=
  let h := s.nextHandle
  ({ s with pending := tblSet s.pending id h, nextHandle := h + 1 },
   [Eff.send id method, Eff.insert id h], h)

/-- `sendMessageToTarget(method, args)`: `assert(this.#session, "session must
be created")` throws on an undefined (or empty) session before anything else
happens; otherwise draws a fresh id from the counter and sends a
`Target.sendMessageToTarget` envelope whose nested message reuses the same
id. -/
def sendMessageToTarget (s : ChromeState) (method : String) :
    Except String (ChromeState × List Eff × Nat) :=
  match s.session with
  | none => Except.error "session must be created"
  | some sess =>
    if sess = "" then Except.error "session must be created"
    else
      let p := nextId s
      Except.ok (sendMessage p.2 p.1 "Target.sendMessageToTarget")

/-- `evaluate(expr)`: sugar over `sendMessageToTarget("Runtime.evaluate",
...)`; the expression rides inside the nested payload, which no claim
inspects. -/
def evaluate (s : ChromeState) (expr : String) :
    Except String (ChromeState × List Eff × Nat) :=
  sendMessageToTarget s "Runtime.evaluate"

/-- The reserved id of `findTarget`'s `Target.setDiscoverTargets` request. -/
def findTargetRequestId : Nat := 0

/-- The reserved id (`const id = 1`) of `startSession`'s
`Target.attachToTarget` request. -/
def startSessionRequestId : Nat := 1

/-- The send performed by `findTarget()` before its blocking scan. -/
def findTargetSend (s : ChromeState) : ChromeState × List Eff × Nat :=
  sendMessage s findTargetRequestId "Target.setDiscoverTargets"

/-- The send performed by `startSession(targetId)` after storing the target. -/
def startSessionSend (s : ChromeState) (targetId : String) :
    ChromeState × List Eff × Nat :=
  sendMessage { s with target := some targetId } startSessionRequestId
    "Target.attachToTarget"

/-- A freshly constructed `ChromeImpl`: `#lastId = 0`, empty tables, no
session or target yet. -/
def initState : ChromeState :=
  { lastId := 0, pending := [], bindings := [], session := none,
    target := none, nextHandle := 0 }

/-- State of the counter after `n` calls to `nextId`. -/
def stateAfterCalls (s : ChromeState) : Nat → ChromeState
  | 0 => s
  | n + 1 => (nextId (stateAfterCalls s n)).2

/-- The id returned by the `(n+1)`-st call to `nextId` (0-based `n`). -/
def idCall (s : ChromeState) (n : Nat) : Nat :=
  (nextId (stateAfterCalls s n)).1

/-! ## Correlation-table lemmas -/

theorem tblGet_cons_pos {k v : Nat} (l : List (Nat × Nat)) {i : Nat} (h : k = i) :
    tblGet ((k, v) :: l) i = some v := by
  simp only [tblGet]
  rw [List.find?_cons_of_pos _ (by simpa using h)]
  rfl

theorem tblGet_cons_neg {k v : Nat} (l : List (Nat × Nat)) {i : Nat} (h : ¬ k = i) :
    tblGet ((k, v) :: l) i = tblGet l i := by
  simp only [tblGet]
  rw [List.find?_cons_of_neg _ (by simpa using h)]

theorem tblDel_cons_pos {k v : Nat} (l : List (Nat × Nat)) {j : Nat} (h : k = j) :
    tblDel ((k, v) :: l) j = l := by
  simp only [tblDel]
  rw [List.eraseP_cons_of_pos (by simpa using h)]

theorem tblDel_cons_neg {k v : Nat} (l : List (Nat × Nat)) {j : Nat} (h : ¬ k = j) :
    tblDel ((k, v) :: l) j = (k, v) :: tblDel l j := by
  simp only [tblDel]
  rw [List.eraseP_cons_of_neg (by simpa using h)]

theorem tblGet_tblDel_ne (l : List (Nat × Nat)) {i j : Nat} (hij : i ≠ j) :
    tblGet (tblDel l j) i = tblGet l i := by
  induction l with
  | nil => rfl
  | cons hd tl ih =>
    obtain ⟨k, v⟩ := hd
    by_cases hkj : k = j
    · rw [tblDel_cons_pos tl hkj, tblGet_cons_neg tl (fun h => hij (h.symm.trans hkj))]
    · rw [tblDel_cons_neg tl hkj]
      by_cases hki : k = i
      · rw [tblGet_cons_pos _ hki, tblGet_cons_pos tl hki]
      · rw [tblGet_cons_neg _ hki, tblGet_cons_neg tl hki, ih]

theorem tblGet_none_of_not_mem (l : List (Nat × Nat)) {i : Nat}
    (h : i ∉ l.map Prod.fst) : tblGet l i = none := by
  induction l with
  | nil => rfl
  | cons hd tl ih =>
    obtain ⟨k, v⟩ := hd
    simp only [List.map_cons, List.mem_cons, not_or] at h
    rw [tblGet_cons_neg tl (fun hk => h.1 hk.symm)]
    exact ih h.2

theorem tblGet_tblDel_self (l : List (Nat × Nat)) {i : Nat}
    (hnd : (l.map Prod.fst).Nodup) : tblGet (tblDel l i) i = none := by
  induction l with
  | nil => rfl
  | cons hd tl ih =>
    obtain ⟨k, v⟩ := hd
    simp only [List.map_cons, List.nodup_cons] at hnd
    by_cases hki : k = i
    · rw [tblDel_cons_pos tl hki]
      exact tblGet_none_of_not_mem tl (hki ▸ hnd.1)
    · rw [tblDel_cons_neg tl hki, tblGet_cons_neg _ hki]
      exact ih hnd.2

theorem tblGet_tblDel_none (l : List (Nat × Nat)) {i : Nat} (j : Nat)
    (h : tblGet l i = none) : tblGet (tblDel l j) i = none := by
  have hall : ∀ p ∈ l, ¬ (p.1 == i) = true := by
    intro p hp
    have hfind : l.find? (fun p => p.1 == i) = none := by
      simpa [tblGet, Option.map_eq_none'] using h
    exact List.find?_eq_none.mp hfind p hp
  have hsub : List.Sublist (tblDel l j) l := List.eraseP_sublist l
  have : (tblDel l j).find? (fun p => p.1 == i) = none :=
    List.find?_eq_none.mpr (fun p hp => hall p (hsub.subset hp))
  simp [tblGet, this]

theorem keys_tblDel_nodup (l : List (Nat × Nat)) (j : Nat)
    (hnd : (l.map Prod.fst).Nodup) : ((tblDel l j).map Prod.fst).Nodup :=
  List.Nodup.sublist ((List.eraseP_sublist l).map Prod.fst) hnd

theorem tblDel_of_get_none (l : List (Nat × Nat)) {i : Nat}
    (h : tblGet l i = none) : tblDel l i = l := by
  have hfind : l.find? (fun p => p.1 == i) = none := by
    simpa [tblGet, Option.map_eq_none'] using h
  exact List.eraseP_of_forall_not (List.find?_eq_none.mp hfind)

/-! ## Read-loop run lemmas -/

/-- The inner id of an envelope, if the message is one. -/
def innerIdOf : InMsg → Option Nat
  | InMsg.received _ _ res => res.id
  | _ => none

/-- The inner ids carried by a list of inbound messages. -/
def respIds (ms : List InMsg) : List Nat := ms.filterMap innerIdOf

/-- A plain correlated response for session `sess`: a
`Target.receivedMessageFromTarget` envelope with the matching session id,
whose inner message has no `method` (so it is neither of the event branches),
has an `id`, and has a settlement shape that does not crash the loop. -/
def isPlainResp (sess : String) : InMsg → Bool
  | InMsg.received sid _ res =>
      sid == sess && res.method == none && res.id.isSome && (settleOutcome res).isSome
  | _ => false

/-- Effect filter selecting the settlements of request id `i`. -/
def settleFor (i : Nat) : Eff → Bool
  | Eff.settle j _ _ => j == i
  | _ => false

theorem processMsg_plain_resp (s : ChromeState) (sess raw : String) (res : InnerMsg)
    (hs : s.session = some sess) (hmeth : res.method = none) :
    processMsg s (InMsg.received sess raw res) = correlate s res [] := by
  simp [processMsg, hs, hmeth]

theorem runLoop_cons_cont {s s' : ChromeState} {m : InMsg} {ms : List InMsg} {e : List Eff}
    (h : processMsg s m = StepRes.cont s' e) :
    runLoop s (m :: ms) =
      ⟨(runLoop s' ms).state, e ++ (runLoop s' ms).effs, (runLoop s' ms).stopped⟩ := by
  simp [runLoop, h]

theorem runLoop_no_settle (i : Nat) (ms : List InMsg) :
    ∀ (s : ChromeState) (sess : String),
    s.session = some sess →
    (∀ m ∈ ms, isPlainResp sess m = true) →
    tblGet s.pending i = none →
    (runLoop s ms).effs.filter (settleFor i) = []
      ∧ tblGet (runLoop s ms).state.pending i = none := by
  induction ms with
  | nil =>
    intro s sess _ _ hnone
    exact ⟨by simp [runLoop], by simpa [runLoop] using hnone⟩
  | cons m ms ih =>
    intro s sess hs hall hnone
    have hm := hall m (List.mem_cons_self m ms)
    have hall' : ∀ x ∈ ms, isPlainResp sess x = true :=
      fun x hx => hall x (List.mem_cons_of_mem m hx)
    cases m with
    | targetDestroyed tid => simp [isPlainResp] at hm
    | other mm => simp [isPlainResp] at hm
    | received sid raw res =>
      simp only [isPlainResp, Bool.and_eq_true, beq_iff_eq,
        Option.isSome_iff_exists] at hm
      obtain ⟨⟨⟨hsid, hmeth⟩, ⟨j, hj⟩⟩, ⟨o', ho'⟩⟩ := hm
      subst hsid
      have hstep := processMsg_plain_resp s sid raw res hs hmeth
      cases hg : tblGet s.pending j with
      | none =>
        have hcor : correlate s res [] =
            StepRes.cont { s with pending := tblDel s.pending j } [] := by
          simp [correlate, hj, hg]
        rw [runLoop_cons_cont (hstep.trans hcor)]
        have := ih { s with pending := tblDel s.pending j } sid hs hall'
          (tblGet_tblDel_none s.pending j hnone)
        simpa using this
      | some h' =>
        have hji : ¬ j = i := by
          intro he
          rw [he, hnone] at hg
          cases hg
        have hcor : correlate s res [] =
            StepRes.cont { s with pending := tblDel s.pending j }
              [Eff.settle j h' o'] := by
          simp [correlate, hj, hg, ho']
        rw [runLoop_cons_cont (hstep.trans hcor)]
        have := ih { s with pending := tblDel s.pending j } sid hs hall'
          (tblGet_tblDel_none s.pending j hnone)
        simpa [List.filter_cons, settleFor, hji] using this

theorem runLoop_keeps_pending (i h : Nat) (ms : List InMsg) :
    ∀ (s : ChromeState) (sess : String),
    s.session = some sess →
    (∀ m ∈ ms, isPlainResp sess m = true) →
    (∀ m ∈ ms, innerIdOf m ≠ some i) →
    tblGet s.pending i = some h →
    (runLoop s ms).effs.filter (settleFor i) = []
      ∧ tblGet (runLoop s ms).state.pending i = some h := by
  induction ms with
  | nil =>
    intro s sess _ _ _ hsome
    exact ⟨by simp [runLoop], by simpa [runLoop] using hsome⟩
  | cons m ms ih =>
    intro s sess hs hall hnid hsome
    have hm := hall m (List.mem_cons_self m ms)
    have hall' : ∀ x ∈ ms, isPlainResp sess x = true :=
      fun x hx => hall x (List.mem_cons_of_mem m hx)
    have hnid' : ∀ x ∈ ms, innerIdOf x ≠ some i :=
      fun x hx => hnid x (List.mem_cons_of_mem m hx)
    cases m with
    | targetDestroyed tid => simp [isPlainResp] at hm
    | other mm => simp [isPlainResp] at hm
    | received sid raw res =>
      simp only [isPlainResp, Bool.and_eq_true, beq_iff_eq,
        Option.isSome_iff_exists] at hm
      obtain ⟨⟨⟨hsid, hmeth⟩, ⟨j, hj⟩⟩, ⟨o', ho'⟩⟩ := hm
      subst hsid
      have hji : ¬ j = i := by
        intro he
        exact hnid _ (List.mem_cons_self _ ms) (by simp [innerIdOf, hj, he])
      have hij : i ≠ j := fun he => hji he.symm
      have hstep := processMsg_plain_resp s sid raw res hs hmeth
      have hkeep : tblGet (tblDel s.pending j) i = some h :=
        (tblGet_tblDel_ne s.pending hij).trans hsome
      cases hg : tblGet s.pending j with
      | none =>
        have hcor : correlate s res [] =
            StepRes.cont { s with pending := tblDel s.pending j } [] := by
          simp [correlate, hj, hg]
        rw [runLoop_cons_cont (hstep.trans hcor)]
        have := ih { s with pending := tblDel s.pending j } sid hs hall' hnid' hkeep
        simpa using this
      | some h' =>
        have hcor : correlate s res [] =
            StepRes.cont { s with pending := tblDel s.pending j }
              [Eff.settle j h' o'] := by
          simp [correlate, hj, hg, ho']
        rw [runLoop_cons_cont (hstep.trans hcor)]
        have := ih { s with pending := tblDel s.pending j } sid hs hall' hnid' hkeep
        simpa [List.filter_cons, settleFor, hji] using this

theorem runLoop_settles (i h : Nat) (o : Outcome) (inr : InnerMsg) (ms : List InMsg) :
    ∀ (s : ChromeState) (sess : String),
    s.session = some sess →
    (s.pending.map Prod.fst).Nodup →
    (∀ m ∈ ms, isPlainResp sess m = true) →
    (respIds ms).Nodup →
    tblGet s.pending i = some h →
    (∃ raw, InMsg.received sess raw inr ∈ ms) →
    inr.id = some i →
    settleOutcome inr = some o →
    (runLoop s ms).effs.filter (settleFor i) = [Eff.settle i h o]
      ∧ tblGet (runLoop s ms).state.pending i = none := by
  induction ms with
  | nil =>
    intro s sess _ _ _ _ _ hmem _ _
    obtain ⟨raw, hmem⟩ := hmem
    cases hmem
  | cons m ms ih =>
    intro s sess hs hkeys hall hids hsome hmem hid ho
    have hm := hall m (List.mem_cons_self m ms)
    have hall' : ∀ x ∈ ms, isPlainResp sess x = true :=
      fun x hx => hall x (List.mem_cons_of_mem m hx)
    cases m with
    | targetDestroyed tid => simp [isPlainResp] at hm
    | other mm => simp [isPlainResp] at hm
    | received sid raw' res =>
      simp only [isPlainResp, Bool.and_eq_true, beq_iff_eq,
        Option.isSome_iff_exists] at hm
      obtain ⟨⟨⟨hsid, hmeth⟩, ⟨j, hj⟩⟩, ⟨o', ho'⟩⟩ := hm
      subst hsid
      have hstep := processMsg_plain_resp s sid raw' res hs hmeth
      have hids_cons : respIds (InMsg.received sid raw' res :: ms) = j :: respIds ms := by
        simp [respIds, List.filterMap_cons, innerIdOf, hj]
      rw [hids_cons] at hids
      have hids' : (respIds ms).Nodup := (List.nodup_cons.mp hids).2
      have hjnot : j ∉ respIds ms := (List.nodup_cons.mp hids).1
      obtain ⟨raw, hmem⟩ := hmem
      rcases List.mem_cons.mp hmem with heq | htail
      · -- the head is the response for `i`
        have hres : res = inr := by injection heq.symm
        have hid_res : res.id = some i := by rw [hres]; exact hid
        have ho_res : settleOutcome res = some o := by rw [hres]; exact ho
        have hcor : correlate s res [] =
            StepRes.cont { s with pending := tblDel s.pending i }
              [Eff.settle i h o] := by
          simp [correlate, hid_res, hsome, ho_res]
        rw [runLoop_cons_cont (hstep.trans hcor)]
        have hafter : tblGet (tblDel s.pending i) i = none :=
          tblGet_tblDel_self s.pending hkeys
        have htail := runLoop_no_settle i ms
          { s with pending := tblDel s.pending i } sid hs hall' hafter
        refine ⟨?_, htail.2⟩
        simp [List.filter_cons, settleFor, htail.1]
      · -- the response for `i` sits in the tail; the head has a different id
        have hji : ¬ j = i := by
          intro he
          exact hjnot (he ▸ (by
            have : innerIdOf (InMsg.received sid raw inr) = some i := by
              simp [innerIdOf, hid]
            exact List.mem_filterMap.mpr ⟨_, htail, this⟩))
        have hij : i ≠ j := fun he => hji he.symm
        have hkeep : tblGet (tblDel s.pending j) i = some h :=
          (tblGet_tblDel_ne s.pending hij).trans hsome
        have hkeys' : ((tblDel s.pending j).map Prod.fst).Nodup :=
          keys_tblDel_nodup s.pending j hkeys
        cases hg : tblGet s.pending j with
        | none =>
          have hcor : correlate s res [] =
              StepRes.cont { s with pending := tblDel s.pending j } [] := by
            simp [correlate, hj, hg]
          rw [runLoop_cons_cont (hstep.trans hcor)]
          have := ih { s with pending := tblDel s.pending j } sid hs hkeys'
            hall' hids' hkeep ⟨raw, htail⟩ hid ho
          simpa using this
        | some h' =>
          have hcor : correlate s res [] =
              StepRes.cont { s with pending := tblDel s.pending j }
                [Eff.settle j h' o'] := by
            simp [correlate, hj, hg, ho']
          rw [runLoop_cons_cont (hstep.trans hcor)]
          have := ih { s with pending := tblDel s.pending j } sid hs hkeys'
            hall' hids' hkeep ⟨raw, htail⟩ hid ho
          simpa [List.filter_cons, settleFor, hji] using this

/-! ## Counter lemmas -/

theorem lastId_stateAfterCalls (s : ChromeState) (n : Nat) :
    (stateAfterCalls s n).lastId = s.lastId + n := by
  induction n with
  | zero => rfl
  | succ n ih => simp [stateAfterCalls, nextId, ih]; omega

theorem idCall_eq (s : ChromeState) (n : Nat) : idCall s n = s.lastId + n + 1 := by
  simp [idCall, nextId, lastId_stateAfterCalls]

/-! ## Concrete fixtures -/

/-- A successful string-valued evaluation result payload. -/
def wResResult (v : String) : ResResult :=
  { description := none, type := some "string", subtype := none, value := some v }

/-- A successful evaluation `result` field. -/
def wInnerResult (v : String) : InnerResult :=
  { result := some (wResResult v), exceptionDetails := none }

/-- A plain successful response for request `i` carrying value `v`. -/
def respInner (i : Nat) (v : String) : InnerMsg :=
  { id := some i, method := none, error := none,
    result := some (wInnerResult v), params := none }

/-- A running client with two requests in flight (ids 2 and 3). -/
def pairState : ChromeState :=
  { lastId := 3, pending := [(2, 10), (3, 11)], bindings := [],
    session := some "sess", target := some "T", nextHandle := 12 }

def respA : InnerMsg := respInner 2 "alpha"

def respB : InnerMsg := respInner 3 "beta"

/-- The two responses in request order. -/
def orderedMsgs : List InMsg :=
  [InMsg.received "sess" "rawA" respA, InMsg.received "sess" "rawB" respB]

/-- The two responses arriving out of order. -/
def shuffledMsgs : List InMsg :=
  [InMsg.received "sess" "rawB" respB, InMsg.received "sess" "rawA" respA]

/-- A running client with one request in flight (id 5, handle 9). -/
def errState : ChromeState :=
  { lastId := 5, pending := [(5, 9)], bindings := [],
    session := some "sess", target := some "T", nextHandle := 10 }

/-- A response whose `error` object carries a present but empty message. -/
def emptyInnerResult : InnerResult := { result := none, exceptionDetails := none }

def emptyMsgErrResp : InnerMsg :=
  { id := some 5, method := none, error := some { message := some "" },
    result := some emptyInnerResult, params := none }

/-- A response with a real protocol error message. -/
def protoErrResp : InnerMsg :=
  { id := some 5, method := none, error := some { message := some "Boom happened" },
    result := none, params := none }

/-- A `Runtime.consoleAPICalled` event as Chrome emits it: no `id` field. -/
def consoleNoIdEvent : InnerMsg :=
  { id := none, method := some "Runtime.consoleAPICalled", error := none,
    result := none, params := none }

/-- A `Runtime.exceptionThrown` event with an `id` that has no pending entry. -/
def exceptionEvent : InnerMsg :=
  { id := some 7, method := some "Runtime.exceptionThrown", error := none,
    result := none, params := none }

/-- A binding returning the number 42 (serialized). -/
def okBindingFn : BindingFn := fun _ => BindingRes.ok "42"

/-- A binding that throws `Error("boom")`. -/
def errBindingFn : BindingFn := fun _ => BindingRes.thrown "boom"

/-- A running client with the bindings `f` and `g` registered. -/
def bridgeState : ChromeState :=
  { lastId := 3, pending := [], bindings := [("f", okBindingFn), ("g", errBindingFn)],
    session := some "sess", target := some "T", nextHandle := 0 }

def okPayload : BindingPayload := { name := "f", seq := 3, args := [] }

def okParams : BindingParams := { id := 7, name := "f", payload := okPayload }

/-- A binding-invoked event for `f` with the sentinel id 0 (the only shape
that reaches the bridge). -/
def okBindingEvent : InnerMsg :=
  { id := some 0, method := some "Runtime.bindingCalled", error := none,
    result := none, params := some okParams }

def errPayload : BindingPayload := { name := "g", seq := 4, args := [] }

def errParams : BindingParams := { id := 7, name := "g", payload := errPayload }

def errBindingEvent : InnerMsg :=
  { id := some 0, method := some "Runtime.bindingCalled", error := none,
    result := none, params := some errParams }

/-- A `Runtime.bindingCalled` event with no `id` field at all, as Chrome
actually emits events. -/
def strayBindingEvent : InnerMsg :=
  { id := none, method := some "Runtime.bindingCalled", error := none,
    result := none, params := some okParams }

/-- A running client with a pending request and the binding `f` registered. -/
def idleBindingState : ChromeState :=
  { lastId := 2, pending := [(2, 0)], bindings := [("f", okBindingFn)],
    session := some "sess", target := some "T", nextHandle := 1 }

/-- A running client attached to target `TGT`. -/
def destroyedState : ChromeState :=
  { lastId := 4, pending := [(4, 0)], bindings := [],
    session := some "sess", target := some "TGT", nextHandle := 1 }

/-- Whether, in an effect trace, the correlation-table insert comes strictly
before the transport write. -/
def insertPrecedesSend (effs : List Eff) : Prop :=
  effs.findIdx (fun e => match e with | Eff.insert _ _ => true | _ => false)
    < effs.findIdx (fun e => match e with | Eff.send _ _ => true | _ => false)

instance (effs : List Eff) : Decidable (insertPrecedesSend effs) :=
  Nat.decLt _ _

/-! ## Claims -/

/-- Claim C1: while the read loop runs, each pending request is settled by
exactly the response whose inner id equals the id assigned at send time,
regardless of the order in which the responses arrive: for any list of plain
responses with pairwise distinct ids containing the response for `i`, and any
permutation of it, the run settles handle `h` of request `i` exactly once,
with the outcome computed from that one response. -/
theorem correlation_settles_by_id
    (s : ChromeState) (sess raw : String) (i h : Nat) (inr : InnerMsg) (o : Outcome)
    (ms ms' : List InMsg)
    (hs : s.session = some sess)
    (hkeys : (s.pending.map Prod.fst).Nodup)
    (hall : ∀ m ∈ ms, isPlainResp sess m = true)
    (hids : (respIds ms).Nodup)
    (hmem : InMsg.received sess raw inr ∈ ms)
    (hid : inr.id = some i)
    (ho : settleOutcome inr = some o)
    (hpend : tblGet s.pending i = some h)
    (hperm : ms.Perm ms') :
    (runLoop s ms').effs.filter (settleFor i) = [Eff.settle i h o] := by
  have hall' : ∀ m ∈ ms', isPlainResp sess m = true :=
    fun m hm => hall m (hperm.mem_iff.mpr hm)
  have hids' : (respIds ms').Nodup := ((hperm.filterMap innerIdOf).nodup_iff).mp hids
  have hmem' : InMsg.received sess raw inr ∈ ms' := hperm.subset hmem
  exact (runLoop_settles i h o inr ms' s sess hs hkeys hall' hids' hpend
    ⟨raw, hmem'⟩ hid ho).1

/-- Witness for C1: two in-flight requests (ids 2 and 3) whose responses
arrive in the opposite order; request 2 is still settled with the value from
the response carrying id 2. -/
theorem correlation_settles_by_id_witness :
    (runLoop pairState shuffledMsgs).effs.filter (settleFor 2)
      = [Eff.settle 2 10 (Outcome.resolveValue (some "alpha"))] :=
  correlation_settles_by_id pairState "sess" "rawA" 2 10 respA
    (Outcome.resolveValue (some "alpha")) orderedMsgs shuffledMsgs
    rfl (by decide) (by decide) (by decide) (by decide) rfl rfl (by decide)
    (List.Perm.swap _ _ _)

/-- Claim C2, counterexample: an inbound response whose inner message carries
a protocol `error` field (with an empty message) and whose id 5 is pending is
RESOLVED (with the raw result), not rejected: `res.error?.message` is falsy
for the empty string, so the error branch is skipped and the final
resolve-raw branch fires. -/
theorem errorField_with_empty_message_resolves :
    effsOf (processMsg errState (InMsg.received "sess" "rawEmptyErr" emptyMsgErrResp))
      = [Eff.settle 5 9 (Outcome.resolveRaw emptyInnerResult)]
    ∧ (Outcome.resolveRaw emptyInnerResult).isRejection = false :=
  ⟨rfl, rfl⟩

/-- Claim C2 (amended): an inbound response whose inner message carries a
protocol error field with a present, NON-EMPTY message, and whose id has a
pending entry, is rejected with exactly that message and never resolved. -/
theorem protocolError_rejects_with_message
    (s : ChromeState) (sess raw : String) (res : InnerMsg) (i h : Nat)
    (e : ProtoError) (msg : String)
    (hs : s.session = some sess) (hmeth : res.method = none)
    (hid : res.id = some i) (hp : tblGet s.pending i = some h)
    (he : res.error = some e) (hem : e.message = some msg) (hne : msg ≠ "") :
    effsOf (processMsg s (InMsg.received sess raw res))
      = [Eff.settle i h (Outcome.rejectError msg)]
    ∧ (Outcome.rejectError msg).isRejection = true := by
  refine ⟨?_, rfl⟩
  rw [processMsg_plain_resp s sess raw res hs hmeth]
  have hso : settleOutcome res = some (Outcome.rejectError msg) := by
    simp [settleOutcome, errMessageTruthy, he, hem, hne]
  simp [correlate, hid, hp, hso, effsOf]

/-- Witness for the amended C2: a pending request (id 5) rejected with the
protocol error message. -/
theorem protocolError_rejects_with_message_witness :
    effsOf (processMsg errState (InMsg.received "sess" "rawProtoErr" protoErrResp))
      = [Eff.settle 5 9 (Outcome.rejectError "Boom happened")]
    ∧ (Outcome.rejectError "Boom happened").isRejection = true :=
  protocolError_rejects_with_message errState "sess" "rawProtoErr" protoErrResp 5 9
    { message := some "Boom happened" } "Boom happened" rfl rfl rfl rfl rfl rfl
    (by decide)

/-- Claim C3, counterexample: the very first id drawn from the counter
(`++this.#lastId` starting at 0) is 1, which IS the reserved bootstrap id of
`startSession`'s `Target.attachToTarget` request, so post-bootstrap ids are
not all strictly greater than every reserved bootstrap id. -/
theorem firstRequestId_reuses_attach_id :
    idCall initState 0 = startSessionRequestId
    ∧ ¬ startSessionRequestId < idCall initState 0 := by
  exact ⟨rfl, by decide⟩

/-- Claim C3 (amended): the counter's ids are strictly increasing and all
strictly greater than the bootstrap discovery id 0, but the first one equals
the bootstrap attach id 1; only from the second call on do they exceed both
bootstrap ids. -/
theorem requestId_counter_monotone :
    (∀ m n : Nat, m < n → idCall initState m < idCall initState n)
    ∧ (∀ n : Nat, findTargetRequestId < idCall initState n)
    ∧ idCall initState 0 = startSessionRequestId
    ∧ (∀ n : Nat, 1 ≤ n → startSessionRequestId < idCall initState n) := by
  refine ⟨?_, ?_, rfl, ?_⟩
  · intro m n hmn
    simp only [idCall_eq, initState]
    omega
  · intro n
    simp only [idCall_eq, initState, findTargetRequestId]
    omega
  · intro n hn
    simp only [idCall_eq, initState, startSessionRequestId]
    omega

/-- Witness for the amended C3 at concrete counter positions. -/
theorem requestId_counter_monotone_witness :
    idCall initState 2 < idCall initState 5
    ∧ findTargetRequestId < idCall initState 0
    ∧ startSessionRequestId < idCall initState 3 :=
  ⟨requestId_counter_monotone.1 2 5 (by decide),
   requestId_counter_monotone.2.1 0,
   requestId_counter_monotone.2.2.2 3 (by decide)⟩

/-- Claim C4: when `transport.receive()` fails, the error is logged; the loop
then terminates if the transport reports closed -- but when the transport is
NOT closed the loop does not continue to the next receive: control falls
through to `m.method` with `m` never assigned, so the iteration crashes on a
`TypeError` instead. -/
theorem receiveError_logs_halts_or_crashes :
    readIter errState (RecvOutcome.fail true) = StepRes.halt errState [Eff.logErr]
    ∧ readIter errState (RecvOutcome.fail false) = StepRes.crash errState [Eff.logErr] :=
  ⟨rfl, rfl⟩

/-- Claim C5, counterexample: a `Runtime.consoleAPICalled` event carrying no
inner `id` (as Chrome emits events) is NOT forwarded to the logger: the
branch requires `res.id == 0`, and `undefined == 0` is false, so the message
is silently dropped. -/
theorem consoleEvent_without_id_not_logged :
    processMsg errState (InMsg.received "sess" "consoleRaw" consoleNoIdEvent)
      = StepRes.cont errState []
    ∧ Eff.logMsg "consoleRaw" ∉
        effsOf (processMsg errState (InMsg.received "sess" "consoleRaw" consoleNoIdEvent)) :=
  ⟨rfl, by decide⟩

/-- Claim C5 (amended): an envelope for the attached session is forwarded to
the logger exactly when its inner message has id 0 and method
`Runtime.consoleAPICalled`, or method `Runtime.exceptionThrown` regardless of
id; the logging branch then falls through to correlation, so nothing is
settled only provided the message's id has no pending entry. -/
theorem loggedEvents_guard (s : ChromeState) (sess raw : String) (res : InnerMsg)
    (hs : s.session = some sess)
    (hg : (res.id = some 0 ∧ res.method = some "Runtime.consoleAPICalled")
          ∨ res.method = some "Runtime.exceptionThrown")
    (hmiss : res.id.bind (tblGet s.pending) = none) :
    processMsg s (InMsg.received sess raw res) = StepRes.cont s [Eff.logMsg raw] := by
  simp only [processMsg]
  rw [if_neg (by simp [hs]), if_pos hg]
  cases hid : res.id with
  | none => simp [correlate, hid]
  | some i =>
    have hnone : tblGet s.pending i = none := by simpa [hid] using hmiss
    simp [correlate, hid, hnone, tblDel_of_get_none s.pending hnone]

/-- Witness for the amended C5: an exception event with an uncorrelated id is
logged and settles nothing. -/
theorem loggedEvents_guard_witness :
    processMsg errState (InMsg.received "sess" "excRaw" exceptionEvent)
      = StepRes.cont errState [Eff.logMsg "excRaw"] :=
  loggedEvents_guard errState "sess" "excRaw" exceptionEvent rfl (Or.inr rfl)
    (by decide)

/-- Claim C9: calling `sendMessageToTarget` (or `evaluate`) before
`startSession` has stored a session id fails on
`assert(this.#session, "session must be created")` without writing to the
transport or touching the correlation table (the error result carries no
state and no effects). -/
theorem sendToTarget_asserts_session (s : ChromeState) (method expr : String)
    (hs : s.session = none) :
    sendMessageToTarget s method = Except.error "session must be created"
    ∧ evaluate s expr = Except.error "session must be created" := by
  constructor <;> simp [sendMessageToTarget, evaluate, hs]

/-- Witness for C9 on a freshly constructed client. -/
theorem sendToTarget_asserts_session_witness :
    sendMessageToTarget initState "Browser.getVersion"
        = Except.error "session must be created"
    ∧ evaluate initState "window.location.href"
        = Except.error "session must be created" :=
  sendToTarget_asserts_session initState "Browser.getVersion"
    "window.location.href" rfl

/-- Claim C10: a `Runtime.bindingCalled` envelope for the attached session
whose inner message has no `id` field skips both the logging and the binding
branch (`undefined == 0` is false), reaches the correlation lookup with an
undefined key, and is silently dropped: no binding runs, no follow-up
evaluate is issued, no pending entry is settled, and the state is
unchanged. -/
theorem bindingCalled_missing_id_dropped (s : ChromeState) (sess raw : String)
    (res : InnerMsg) (hs : s.session = some sess)
    (hm : res.method = some "Runtime.bindingCalled") (hid : res.id = none) :
    processMsg s (InMsg.received sess raw res) = StepRes.cont s [] := by
  simp [processMsg, correlate, hs, hm, hid]

/-- Witness for C10: a client with the binding `f` registered drops a
`Runtime.bindingCalled` event that lacks an id. -/
theorem bindingCalled_missing_id_dropped_witness :
    processMsg idleBindingState (InMsg.received "sess" "rawStray" strayBindingEvent)
      = StepRes.cont idleBindingState [] :=
  bindingCalled_missing_id_dropped idleBindingState "sess" "rawStray"
    strayBindingEvent rfl rfl rfl

/-- Claim C6: a binding-invoked event for a registered binding produces
exactly one follow-up `Runtime.evaluate` in the originating context -- but
the injected expression cannot deliver the value through the page-side
callbacks: the raw `error` string is interpolated unquoted into the `if`
condition, so a successful binding (error `""`) yields the ill-formed
JavaScript `if () \x7b ... \x7d` and a throwing binding yields
`if (boom) \x7b ... \x7d`, which dereferences an undefined identifier
instead of testing a string literal (the Go original interpolates a
pre-quoted string). -/
theorem bindingBridge_unquoted_error_guard :
    effsOf (processMsg bridgeState (InMsg.received "sess" "rawOk" okBindingEvent))
      = [Eff.bridgeEval (buildExpr "f" 3 "42" "") 7]
    ∧ effsOf (processMsg bridgeState (InMsg.received "sess" "rawErr" errBindingEvent))
      = [Eff.bridgeEval (buildExpr "g" 4 "" "boom") 7]
    ∧ (buildExpr "f" 3 "42" "").data.take 17 = "\n\t  \t\t\t\t\t\tif () \x7b".data
    ∧ (buildExpr "g" 4 "" "boom").data.take 21 = "\n\t  \t\t\t\t\t\tif (boom) \x7b".data :=
  ⟨rfl, rfl, by decide, by decide⟩

/-- Claim C7: a `Target.targetDestroyed` event for the attached target makes
the read loop call `exit()` exactly once and return, processing none of the
messages behind it; a target-destroyed event for any other target id calls
nothing and the loop simply continues. -/
theorem targetDestroyed_exit_once (s : ChromeState) (tid : String) (ms : List InMsg)
    (hT : s.target = some tid) :
    runLoop s (InMsg.targetDestroyed tid :: ms) = ⟨s, [Eff.exit], LoopExit.halted⟩
    ∧ ∀ (tid' : String) (ms' : List InMsg), s.target ≠ some tid' →
        runLoop s (InMsg.targetDestroyed tid' :: ms') = runLoop s ms' := by
  constructor
  · simp [runLoop, processMsg, hT]
  · intro tid' ms' hne
    have hstep : processMsg s (InMsg.targetDestroyed tid') = StepRes.cont s [] := by
      simp [processMsg, hne]
    rw [runLoop_cons_cont hstep]
    simp

/-- Witness for C7: destroying the attached target `TGT` exits at once even
with traffic queued behind the event; destroying `OTHER` is a no-op. -/
theorem targetDestroyed_exit_once_witness :
    runLoop destroyedState
        [InMsg.targetDestroyed "TGT", InMsg.received "sess" "rawA" respA]
      = ⟨destroyedState, [Eff.exit], LoopExit.halted⟩
    ∧ runLoop destroyedState [InMsg.targetDestroyed "OTHER"]
      = runLoop destroyedState [] := by
  have h := targetDestroyed_exit_once destroyedState "TGT"
    [InMsg.received "sess" "rawA" respA] rfl
  exact ⟨h.1, h.2 "OTHER" [] (by decide)⟩

/-- Claim C8, counterexample: in `sendMessage` the completion handle is
inserted into the correlation table only AFTER the transport write
(`this.#transport.send(message)` runs, then `deferred()` is created and
`#pending.set` runs), so the insert does not precede the send in the effect
trace. -/
theorem sendMessage_inserts_after_send :
    (sendMessage pairState 5 "Runtime.evaluate").2.1
      = [Eff.send 5 "Runtime.evaluate", Eff.insert 5 12]
    ∧ ¬ insertPrecedesSend (sendMessage pairState 5 "Runtime.evaluate").2.1 :=
  ⟨rfl, by decide⟩

/-- Claim C8 (amended): `sendMessage` inserts the completion handle into the
correlation table immediately after the transport write and before
returning, so the entry is present before any response can be processed; and
for any run of the read loop over plain responses with distinct ids, the
entry for a pending id is removed exactly once -- by the response bearing
that id, which also settles it -- or never, if no such response arrives. -/
theorem pending_insert_then_single_removal
    (s : ChromeState) (id : Nat) (method : String)
    (sess : String) (ms : List InMsg) (i h : Nat)
    (hs : s.session = some sess)
    (hkeys : (s.pending.map Prod.fst).Nodup)
    (hall : ∀ m ∈ ms, isPlainResp sess m = true)
    (hids : (respIds ms).Nodup)
    (hpend : tblGet s.pending i = some h) :
    ((sendMessage s id method).2.1 = [Eff.send id method, Eff.insert id s.nextHandle]
      ∧ tblGet (sendMessage s id method).1.pending id = some s.nextHandle)
    ∧ ((∀ m ∈ ms, innerIdOf m ≠ some i) →
        (runLoop s ms).effs.filter (settleFor i) = []
          ∧ tblGet (runLoop s ms).state.pending i = some h)
    ∧ (∀ (raw : String) (inr : InnerMsg) (o : Outcome),
        InMsg.received sess raw inr ∈ ms → inr.id = some i →
        settleOutcome inr = some o →
        (runLoop s ms).effs.filter (settleFor i) = [Eff.settle i h o]
          ∧ tblGet (runLoop s ms).state.pending i = none) := by
  refine ⟨⟨rfl, tblGet_cons_pos _ rfl⟩, ?_, ?_⟩
  · intro hnid
    exact runLoop_keeps_pending i h ms s sess hs hall hnid hpend
  · intro raw inr o hmem hid ho
    exact runLoop_settles i h o inr ms s sess hs hkeys hall hids hpend
      ⟨raw, hmem⟩ hid ho

/-- Witness for the amended C8: a fresh send registers id 7 under handle 12;
in a run containing the response for pending id 3, that entry is settled
exactly once and removed. -/
theorem pending_insert_then_single_removal_witness :
    ((sendMessage pairState 7 "Target.sendMessageToTarget").2.1
        = [Eff.send 7 "Target.sendMessageToTarget", Eff.insert 7 12]
      ∧ tblGet (sendMessage pairState 7 "Target.sendMessageToTarget").1.pending 7
        = some 12)
    ∧ (runLoop pairState orderedMsgs).effs.filter (settleFor 3)
        = [Eff.settle 3 11 (Outcome.resolveValue (some "beta"))]
    ∧ tblGet (runLoop pairState orderedMsgs).state.pending 3 = none := by
  have hcl := pending_insert_then_single_removal pairState 7
    "Target.sendMessageToTarget" "sess" orderedMsgs 3 11 rfl (by decide)
    (by decide) (by decide) (by decide)
  have h3 := hcl.2.2 "rawB" respB (Outcome.resolveValue (some "beta"))
    (by decide) rfl rfl
  exact ⟨hcl.1, h3.1, h3.2⟩
